import Mathlib

/- Verification of the proxy-browser server (src/server.js).

   This file shallowly embeds the pieces of server.js that the claims are
   about: the absoluteUrl helper (a wrapper around the WHATWG URL
   constructor, modelled here for the http-style inputs the server
   handles), encodeURIComponent, the cheerio-based attribute rewriting
   passes of the GET /proxy handler, and the request/response behaviour of
   the GET /meta, GET /asset and GET /proxy handlers.

   Strings are processed as lists of characters; all definitions are
   structurally recursive and executable.

   Modelling notes, recorded once here:
   - The WHATWG URL model covers scheme splitting, special (http, https,
     ws, wss, ftp) versus non-special schemes, authority parsing,
     path-absolute, path-relative, query, fragment and scheme-relative
     references, dot-segment removal, and ASCII lowercasing of scheme and
     host. It does not model percent-encoding of path characters, tab and
     newline stripping inside the input, backslash conversion in paths,
     the file scheme, or punycode; none of the claims exercise those.
   - JavaScript toLowerCase and trim are modelled on ASCII input.
   - Express response defaults: a response never given an explicit status
     is 200; res.send of a Buffer with no content-type set defaults to
     application/octet-stream; piping a stream sets no content-type. -/

-- ### Characters that the special-token scanner would reject as literals

def sqc : Char := Char.ofNat 39

def dqc : Char := Char.ofNat 34

def nlc : Char := Char.ofNat 10

def sqs : String := String.mk [sqc]

def dqs : String := String.mk [dqc]

-- ### List and string utilities

def listStarts : List Char → List Char → Bool
  | _, [] => true
  | [], _ :: _ => false
  | c :: cs, d :: ds => c == d && listStarts cs ds

def strStarts (s p : String) : Bool := listStarts s.data p.data

def listEnds (l suf : List Char) : Bool := listStarts l.reverse suf.reverse

def containsSub (needle : List Char) : List Char → Bool
  | [] => needle.isEmpty
  | c :: rest => listStarts (c :: rest) needle || containsSub needle rest

def asciiLower (c : Char) : Char :=
  if 65 ≤ c.toNat ∧ c.toNat ≤ 90 then Char.ofNat (c.toNat + 32) else c

def lowerL (l : List Char) : List Char := l.map asciiLower

def lowerS (s : String) : String := String.mk (lowerL s.data)

def trimL (l : List Char) : List Char :=
  ((l.dropWhile Char.isWhitespace).reverse.dropWhile Char.isWhitespace).reverse

/-- JavaScript s.split(sep) for a single-character separator. -/
def splitOnChar (sep : Char) : List Char → List (List Char)
  | [] => [[]]
  | c :: rest =>
    if c == sep then [] :: splitOnChar sep rest
    else
      match splitOnChar sep rest with
      | [] => [[c]]
      | h :: t => (c :: h) :: t

/-- Split at the first occurrence of sep: the part before it, and the part
after it when sep occurs at all. -/
def splitAtChar (sep : Char) : List Char → List Char × Option (List Char)
  | [] => ([], none)
  | c :: rest =>
    if c == sep then ([], some rest)
    else
      match splitAtChar sep rest with
      | (a, b) => (c :: a, b)

/-- JavaScript s.split on a whitespace-run regular expression: maximal
whitespace runs separate the pieces, and a run touching either end of the
string contributes an empty piece there. -/
def splitWsGo : Bool → List Char → List Char → List (List Char)
  | _, acc, [] => [acc.reverse]
  | inTok, acc, c :: rest =>
    if c.isWhitespace then
      if inTok then acc.reverse :: splitWsGo false [] rest
      else splitWsGo false [] rest
    else splitWsGo true (c :: acc) rest

def splitWsJS (l : List Char) : List (List Char) := splitWsGo true [] l

/-- JavaScript array.join(sep). -/
def joinSep (sep : String) : List String → String
  | [] => ""
  | [x] => x
  | x :: y :: rest => x ++ sep ++ joinSep sep (y :: rest)

-- ### The WHATWG URL model behind absoluteUrl

def isAsciiAlpha (c : Char) : Bool :=
  decide (65 ≤ c.toNat ∧ c.toNat ≤ 90) || decide (97 ≤ c.toNat ∧ c.toNat ≤ 122)

def isSchemeChar (c : Char) : Bool :=
  isAsciiAlpha c || c.isDigit || c == '+' || c == '-' || c == '.'

def splitSchemeGo (acc : List Char) : List Char → Option (List Char × List Char)
  | [] => none
  | c :: rest =>
    if c == ':' then some (acc.reverse, rest)
    else if isSchemeChar c then splitSchemeGo (c :: acc) rest
    else none

/-- Split a leading URL scheme (one ASCII letter then scheme characters,
terminated by a colon) from the rest of the input. -/
def splitScheme : List Char → Option (List Char × List Char)
  | [] => none
  | c :: rest => if isAsciiAlpha c then splitSchemeGo [c] rest else none

/-- A parsed URL: either hierarchical with an authority (the special
schemes the server meets), or a non-special scheme with its raw remainder
(javascript:, mailto:, data:, ...). -/
inductive ModelUrl where
  | hier (scheme host path : List Char) (query : Option (List Char)) (frag : Option (List Char))
  | plain (scheme : List Char) (rest : List Char)
deriving DecidableEq

def schemeOf : ModelUrl → List Char
  | .hier s _ _ _ _ => s
  | .plain s _ => s

def isSpecial (s : List Char) : Bool :=
  s == "http".data || s == "https".data || s == "ws".data || s == "wss".data || s == "ftp".data

def serializeUrl : ModelUrl → List Char
  | .hier sch host p q f =>
    sch ++ ':' :: '/' :: '/' :: host
      ++ (if p.isEmpty then ['/'] else p)
      ++ (match q with | some qq => '?' :: qq | none => [])
      ++ (match f with | some ff => '#' :: ff | none => [])
  | .plain sch rest => sch ++ ':' :: rest

/-- Split the part after the authority into path, query and fragment. -/
def splitPQF (l : List Char) : List Char × Option (List Char) × Option (List Char) :=
  match splitAtChar '#' l with
  | (beforeHash, frag) =>
    match splitAtChar '?' beforeHash with
    | (p, q) => (p, q, frag)

/-- RFC 3986 dot-segment removal over the segments after the leading
slash; a trailing "." or ".." leaves a trailing slash. -/
def dotProc : List (List Char) → List (List Char) → List (List Char)
  | [], acc => acc.reverse
  | [seg], acc =>
    if seg == ['.'] then acc.reverse ++ [[]]
    else if seg == ['.', '.'] then (acc.drop 1).reverse ++ [[]]
    else acc.reverse ++ [seg]
  | seg :: seg2 :: rest, acc =>
    if seg == ['.'] then dotProc (seg2 :: rest) acc
    else if seg == ['.', '.'] then dotProc (seg2 :: rest) (acc.drop 1)
    else dotProc (seg2 :: rest) (seg :: acc)

def joinSegs : List (List Char) → List Char
  | [] => []
  | [s] => s
  | s :: s2 :: rest => s ++ '/' :: joinSegs (s2 :: rest)

def normPath (p : List Char) : List Char :=
  match p with
  | [] => []
  | _ =>
    match splitOnChar '/' p with
    | [] => p
    | first :: rest => first ++ '/' :: joinSegs (dotProc rest [])

/-- The directory of a base path: everything up to and including the last
slash (the whole path when it ends in a slash). -/
def dirOf (p : List Char) : List Char :=
  match (p.reverse.dropWhile (fun c => !(c == '/'))).reverse with
  | [] => ['/']
  | r => r

def skipSlashes : List Char → List Char
  | [] => []
  | c :: rest => if c == '/' || c == '\\' then skipSlashes rest else c :: rest

def isHostDelim (c : Char) : Bool := c == '/' || c == '\\' || c == '?' || c == '#'

/-- The authority and tail of a special-scheme URL: refuse an empty host
or a space inside the host, then split path, query and fragment. -/
def hostParse (sch host after : List Char) : Option ModelUrl :=
  if host.isEmpty then none
  else if host.any (fun c => c == ' ') then none
  else
    match splitPQF after with
    | (p, q, f) => some (.hier sch (lowerL host) (normPath p) q f)

/-- Parse the remainder of a special-scheme URL after the colon: skip the
authority slashes, take the host up to a delimiter, and parse the rest. -/
def parseAbsHier (sch : List Char) (rest : List Char) : Option ModelUrl :=
  hostParse sch
    ((skipSlashes rest).takeWhile (fun c => !isHostDelim c))
    ((skipSlashes rest).dropWhile (fun c => !isHostDelim c))

/-- Resolve a reference with no scheme against a parsed base: empty
keeps path and query, # replaces the fragment, ? the query, // the
authority, / the path, and anything else merges with the base directory.
A base with an opaque path cannot carry a relative reference. -/
def parseRelNoScheme : ModelUrl → List Char → Option ModelUrl
  | .plain _ _, _ => none
  | .hier sch host p q _, [] => some (.hier sch host p q none)
  | .hier sch host p q _, c :: rest =>
    if c == '#' then some (.hier sch host p q (some rest))
    else if c == '?' then
      match splitAtChar '#' rest with
      | (qq, f) => some (.hier sch host p (some qq) f)
    else if c == '/' then
      if listStarts rest ['/'] then parseAbsHier sch (c :: rest)
      else
        match splitPQF (c :: rest) with
        | (pp, qq, f) => some (.hier sch host (normPath pp) qq f)
    else
      match splitPQF (c :: rest) with
      | (pp, qq, f) => some (.hier sch host (normPath (dirOf p ++ pp)) qq f)

/-- Parse an absolute URL (the basic URL parser with no base). -/
def parseAbs (l : List Char) : Option ModelUrl :=
  match splitScheme l with
  | none => none
  | some (sch, rest) =>
    if isSpecial (lowerL sch) then parseAbsHier (lowerL sch) rest
    else some (.plain (lowerL sch) rest)

/-- Parse a reference against a parsed base, as the URL constructor does
when given two arguments.  A special-scheme reference whose scheme equals
the base scheme and that does not introduce an authority is treated as
relative, matching the WHATWG special relative state. -/
def parseWithBaseHier (bs : List Char) (b : ModelUrl) (sch rest : List Char) : Option ModelUrl :=
  if lowerL sch == bs && !(listStarts rest ['/', '/']) then parseRelNoScheme b rest
  else parseAbsHier (lowerL sch) rest

def parseWithBase (b : ModelUrl) (l : List Char) : Option ModelUrl :=
  match splitScheme l with
  | some (sch, rest) =>
    if isSpecial (lowerL sch) then
      match b with
      | .hier bs _ _ _ _ => parseWithBaseHier bs b sch rest
      | .plain _ _ => parseAbsHier (lowerL sch) rest
    else some (.plain (lowerL sch) rest)
  | none => parseRelNoScheme b l

/-- new URL(rel, base).toString(), or none when the constructor throws.
The base is parsed first and its failure is failure of the whole call,
whatever the reference is. -/
def absoluteUrlL (base rel : List Char) : Option (List Char) :=
  match parseAbs (trimL base) with
  | none => none
  | some b => (parseWithBase b (trimL rel)).map serializeUrl

/-- server.js absoluteUrl(base, relative): new URL(relative, base)
.toString() with null (none) on a thrown TypeError. -/
def absoluteUrl (base rel : String) : Option String :=
  (absoluteUrlL base.data rel.data).map String.mk

-- ### encodeURIComponent

def hexDig (n : Nat) : Char :=
  if n < 10 then Char.ofNat (48 + n) else Char.ofNat (55 + n)

def utf8Bytes (n : Nat) : List Nat :=
  if n < 128 then [n]
  else if n < 2048 then [192 + n / 64, 128 + n % 64]
  else if n < 65536 then [224 + n / 4096, 128 + (n / 64) % 64, 128 + n % 64]
  else [240 + n / 262144, 128 + (n / 4096) % 64, 128 + (n / 64) % 64, 128 + n % 64]

/-- The characters encodeURIComponent leaves unescaped. -/
def unreservedB (c : Char) : Bool :=
  c.isAlphanum || c == '-' || c == '_' || c == '.' || c == '!' || c == '~'
    || c == '*' || c == sqc || c == '(' || c == ')'

def encChar (c : Char) : List Char :=
  if unreservedB c then [c]
  else (utf8Bytes c.toNat).foldr (fun b acc => '%' :: hexDig (b / 16) :: hexDig (b % 16) :: acc) []

def encodeL : List Char → List Char
  | [] => []
  | c :: rest => encChar c ++ encodeL rest

def encodeURIComponent (s : String) : String := String.mk (encodeL s.data)

/-- A rewritten navigation reference: /proxy?url= plus the encoded URL. -/
def navRef (abs : String) : String := "/proxy?url=" ++ encodeURIComponent abs

/-- A rewritten asset reference: /asset?url= plus the encoded URL. -/
def assetRef (abs : String) : String := "/asset?url=" ++ encodeURIComponent abs

/-- Characters that may appear in a same-origin endpoint reference: the
unreserved and percent-escape characters of encodeURIComponent plus the
literal characters of the two endpoint prefixes. -/
def refChar (c : Char) : Bool :=
  unreservedB c || c == '%' || c == '/' || c == '?' || c == '='

/-- A well-formed same-origin reference to one of the two indirection
endpoints: it names /proxy?url= or /asset?url=, it is path-absolute and
not scheme-relative, and every character is a safe URL character. -/
def sameOriginEndpointRef (s : String) : Bool :=
  (strStarts s "/proxy?url=" || strStarts s "/asset?url=")
    && !(strStarts s "//")
    && s.data.all refChar

-- ### The cheerio document model

/-- An element of the parsed HTML tree, as the rewriting loops see it: a
(lowercased) tag name, its attribute list, and its text content (only the
metadata extractor reads text). The tree shape is irrelevant to every
rewriting rule, which select elements by tag and attribute alone. -/
structure HtmlElement where
  tag : String
  attrs : List (String × String)
  text : String
deriving DecidableEq

def attrsGet : List (String × String) → String → Option String
  | [], _ => none
  | (n, v) :: rest, a => if n = a then some v else attrsGet rest a

def attrsSet : List (String × String) → String → String → List (String × String)
  | [], a, v => [(a, v)]
  | (n, w) :: rest, a, v => if n = a then (n, v) :: rest else (n, w) :: attrsSet rest a v

/-- cheerio $(el).attr(name). -/
def HtmlElement.attr (el : HtmlElement) (a : String) : Option String := attrsGet el.attrs a

/-- cheerio $(el).attr(name, value). -/
def HtmlElement.setAttr (el : HtmlElement) (a v : String) : HtmlElement :=
  { el with attrs := attrsSet el.attrs a v }

/-- One selector-loop body: if the attribute is present, compute a
replacement from its value, and write it back when the rule produced one
(none means leave the attribute untouched). -/
def tryRewriteAttr (el : HtmlElement) (a : String) (f : String → Option String) : HtmlElement :=
  match el.attr a with
  | none => el
  | some v =>
    match f v with
    | none => el
    | some v2 => el.setAttr a v2

-- ### Inline style url(...) rewriting

/-- The decomposition of a style value under the global regex replace
over url functional-notation references: raw pieces pass through byte
for byte (unmatched text and matches whose URL did not resolve), asset
pieces are matches whose inner URL resolved to abs. -/
inductive StylePiece where
  | raw (t : String)
  | asset (abs : String)
deriving DecidableEq

def renderPiece : StylePiece → String
  | .raw t => t
  | .asset abs => "url(" ++ sqs ++ assetRef abs ++ sqs ++ ")"

def piecesData : List StylePiece → List Char
  | [] => []
  | p :: rest => (renderPiece p).data ++ piecesData rest

/-- Lazy scan for the pattern quote-then-close-paren: the inner text runs
to the first occurrence of the quote immediately followed by a closing
parenthesis; a dot never matches a newline. -/
def scanQuoted (q : Char) : List Char → Option (List Char × List Char)
  | c1 :: c2 :: rest =>
    if c1 == nlc then none
    else if c1 == q && c2 == ')' then some ([], rest)
    else
      match scanQuoted q (c2 :: rest) with
      | some (inner, r) => some (c1 :: inner, r)
      | none => none
  | _ => none

/-- Lazy scan for an unquoted inner text: it runs to the first closing
parenthesis, with no newline before it. -/
def scanUnquoted : List Char → Option (List Char × List Char)
  | [] => none
  | c :: rest =>
    if c == ')' then some ([], rest)
    else if c == nlc then none
    else
      match scanUnquoted rest with
      | some (inner, r) => some (c :: inner, r)
      | none => none

def unquotedMatch (l : List Char) : Option (List Char × List Char × List Char) :=
  match scanUnquoted l with
  | some (inner, r) => some ("url(".data ++ inner ++ [')'], inner, r)
  | none => none

/-- Match the regex tail after url( has been consumed: a quoted group is
preferred when the next character is a quote, and on its failure the
engine backtracks to the empty quote alternative. Returns the whole
matched text, the inner reference, and the remaining input. -/
def styleMatch (l : List Char) : Option (List Char × List Char × List Char) :=
  match l with
  | c :: rest =>
    if c == sqc || c == dqc then
      match scanQuoted c rest with
      | some (inner, r) => some ("url(".data ++ c :: inner ++ [c, ')'], inner, r)
      | none => unquotedMatch l
    else unquotedMatch l
  | [] => none

/-- The global regex replace, one piece per step: at each occurrence of
url( a match is attempted; a match whose inner reference resolves becomes
an asset piece, any other character or failed match passes through raw.
The fuel only bounds recursion and exceeds the input length in use. -/
def stylePiecesAux (base : String) : Nat → List Char → List StylePiece
  | 0, l => [.raw (String.mk l)]
  | _ + 1, [] => []
  | fuel + 1, c :: rest =>
    if listStarts (c :: rest) "url(".data then
      match styleMatch ((c :: rest).drop 4) with
      | some (m, inner, restAfter) =>
        (match absoluteUrl base (String.mk inner) with
         | none => StylePiece.raw (String.mk m)
         | some abs => StylePiece.asset abs) :: stylePiecesAux base fuel restAfter
      | none => .raw (String.mk [c]) :: stylePiecesAux base fuel rest
    else .raw (String.mk [c]) :: stylePiecesAux base fuel rest

def stylePieces (base s : String) : List StylePiece :=
  stylePiecesAux base (s.data.length + 1) s.data

/-- The global style.replace over url references from the /proxy
handler: resolved references become single-quoted url references to the
asset endpoint, others stay as written. -/
def rewriteStyleValue (base s : String) : String :=
  String.mk (piecesData (stylePieces base s))

-- ### srcset rewriting

/-- The first whitespace token of a trimmed candidate: the candidate URL
position of const [u, descriptor] = p.split(/\s+/). -/
def candUrl (p : String) : String := String.mk ((splitWsJS p.data).headD [])

/-- The descriptor suffix appended after a rewritten candidate: a space
and the second whitespace token when there is one, nothing otherwise. -/
def candDescSuffix (p : String) : String :=
  match (splitWsJS p.data)[1]? with
  | some d => " " ++ String.mk d
  | none => ""

/-- One srcset candidate: resolve its URL token; on success emit the
asset reference plus the descriptor suffix, on failure return the
candidate unchanged. -/
def rewriteCandidate (base : String) (p : String) : String :=
  match absoluteUrl base (candUrl p) with
  | none => p
  | some abs => assetRef abs ++ candDescSuffix p

/-- The srcset rewrite of the /proxy handler: split on commas, trim
each candidate, rewrite it, and join with a comma and space. -/
def rewriteSrcset (base s : String) : String :=
  joinSep ", " ((splitOnChar ',' s.data).map (fun p => rewriteCandidate base (String.mk (trimL p))))

-- ### The rewriting passes of the /proxy handler

/-- The anchor loop over a[href] elements: skip falsy, anchor-only and
javascript: values, otherwise resolve and route through /proxy. -/
def anchorPass (base : String) (el : HtmlElement) : HtmlElement :=
  if el.tag = "a" then
    tryRewriteAttr el "href" (fun href =>
      if href == "" || strStarts href "#" || strStarts href "javascript:" then none
      else (absoluteUrl base href).map navRef)
  else el

/-- The image loop over img[src] elements: resolve and route through
/asset. -/
def imgSrcPass (base : String) (el : HtmlElement) : HtmlElement :=
  if el.tag = "img" then
    tryRewriteAttr el "src" (fun src => (absoluteUrl base src).map assetRef)
  else el

/-- The script loop over script[src] elements: resolve and route
through /asset. -/
def scriptSrcPass (base : String) (el : HtmlElement) : HtmlElement :=
  if el.tag = "script" then
    tryRewriteAttr el "src" (fun src => (absoluteUrl base src).map assetRef)
  else el

/-- The stylesheet test of the link pass: the resolved URL truncated at
the first question mark ends case-insensitively in .css. -/
def cssLink (abs : String) : Bool :=
  listEnds (lowerL (abs.data.takeWhile (fun c => !(c == '?')))) ".css".data

/-- The link loop over link[href] elements: resolve; stylesheets and
.css targets route through /asset, every other link routes through
/proxy. -/
def linkPass (base : String) (el : HtmlElement) : HtmlElement :=
  if el.tag = "link" then
    tryRewriteAttr el "href" (fun href =>
      (absoluteUrl base href).map (fun abs =>
        if lowerS ((el.attr "rel").getD "") == "stylesheet" || cssLink abs then assetRef abs
        else navRef abs))
  else el

/-- The style loop over elements carrying a style attribute, with the
falsy guard on the attribute value. -/
def stylePass (base : String) (el : HtmlElement) : HtmlElement :=
  tryRewriteAttr el "style" (fun st =>
    if st == "" then none else some (rewriteStyleValue base st))

/-- The srcset loop over img[srcset] elements, with the falsy guard on
the attribute value. -/
def srcsetPass (base : String) (el : HtmlElement) : HtmlElement :=
  if el.tag = "img" then
    tryRewriteAttr el "srcset" (fun ss =>
      if ss == "" then none else some (rewriteSrcset base ss))
  else el

/-- All rewriting passes of the /proxy handler in source order. Each pass
touches a disjoint tag and attribute slot, as in the source. -/
def rewriteElement (base : String) (el : HtmlElement) : HtmlElement :=
  srcsetPass base (stylePass base (linkPass base (scriptSrcPass base (imgSrcPass base (anchorPass base el)))))

/-- The document-level rewrite: every element runs through the passes.
The banner that the handler prepends to body is a tree insertion of a new
element and is outside this element-wise model, as is serialization. -/
def rewritePage (base : String) (doc : List HtmlElement) : List HtmlElement :=
  doc.map (rewriteElement base)

-- ### The three HTTP handlers

/-- An upstream fetch response as the handlers consume it. bodyStream
records whether r.body is a Node stream (node-fetch v2 always yields
one; the buffered fallback exists in the source all the same). -/
structure Upstream where
  status : Nat
  contentType : Option String
  body : List Nat
  bodyStream : Bool
deriving DecidableEq

inductive BodyOut where
  | bytes (b : List Nat)
  | text (t : String)
  | page (doc : List HtmlElement)
deriving DecidableEq

/-- A response of the server: status, content-type header if set, body. -/
structure HttpOut where
  status : Nat
  contentType : Option String
  body : BodyOut
deriving DecidableEq

/-- The content-type the /asset handler forwards: the upstream header
when truthy, nothing otherwise. -/
def assetCT (r : Upstream) : Option String :=
  match r.contentType with
  | some c => if c == "" then none else some c
  | none => none

/-- GET /asset: 400 on a falsy url parameter; 500 with a plain-text body
when fetch throws (network error, timeout); otherwise Express default
status 200, the upstream content-type forwarded when truthy, and the
upstream bytes forwarded (streamed, or buffered through res.send, which
stamps application/octet-stream when no type was set). -/
def assetHandler (url : Option String) (fetched : Option Upstream) : HttpOut :=
  match url with
  | none => ⟨400, none, .text "No url"⟩
  | some u =>
    if u == "" then ⟨400, none, .text "No url"⟩
    else
      match fetched with
      | none => ⟨500, none, .text "Asset fetch failed"⟩
      | some r =>
        if r.bodyStream then ⟨200, assetCT r, .bytes r.body⟩
        else ⟨200, (match assetCT r with
                    | none => some "application/octet-stream"
                    | some c => some c), .bytes r.body⟩

/-- GET /proxy: 400 on a falsy url parameter; 500 "Proxy failed" when
either fetch throws; a non-HTML content-type triggers a second fetch
whose bytes are piped back with no content-type header of their own (or
sent buffered, stamping application/octet-stream); an HTML content-type
yields the rewritten document under text/html; charset=utf-8. The parsed
document stands in for cheerio.load of the first response body. -/
def proxyHandler (url : Option String) (fetch1 fetch2 : Option Upstream)
    (parsedDoc : List HtmlElement) : HttpOut :=
  match url with
  | none => ⟨400, none, .text "No url"⟩
  | some u =>
    if u == "" then ⟨400, none, .text "No url"⟩
    else
      match fetch1 with
      | none => ⟨500, none, .text "Proxy failed"⟩
      | some r =>
        if !(containsSub ("text/html".data) ((r.contentType).getD "").data) then
          match fetch2 with
          | none => ⟨500, none, .text "Proxy failed"⟩
          | some r2 =>
            if r2.bodyStream then ⟨200, none, .bytes r2.body⟩
            else ⟨200, some "application/octet-stream", .bytes r2.body⟩
        else ⟨200, some "text/html; charset=utf-8", .page (rewritePage u parsedDoc)⟩

-- ### The /meta handler

inductive MetaResp where
  | badRequest
  | ok (title : String) (favicon : Option String)
deriving DecidableEq

def MetaResp.statusOf : MetaResp → Nat
  | .badRequest => 400
  | .ok _ _ => 200

/-- JavaScript truthiness of an attribute lookup: undefined and the empty
string are falsy. -/
def jsTruthy (o : Option String) : Option String :=
  match o with
  | some s => if s == "" then none else some s
  | none => none

/-- The attribute lookup behind an exact attribute-equality selector:
the wanted attribute of the first element of the given tag whose
attrName attribute equals attrVal, undefined when none matches. -/
def firstAttrOf (doc : List HtmlElement) (tag attrName attrVal want : String) : Option String :=
  (doc.find? (fun el => el.tag == tag && el.attr attrName == some attrVal)).bind
    (fun el => el.attr want)

/-- The favicon href chain of /meta: link[rel=icon], else
link[rel="shortcut icon"], else link[rel=apple-touch-icon], each step
skipped when its lookup is falsy. -/
def faviconHref (doc : List HtmlElement) : Option String :=
  match jsTruthy (firstAttrOf doc "link" "rel" "icon" "href") with
  | some h => some h
  | none =>
    match jsTruthy (firstAttrOf doc "link" "rel" "shortcut icon" "href") with
    | some h => some h
    | none => jsTruthy (firstAttrOf doc "link" "rel" "apple-touch-icon" "href")

/-- The origin favicon fallback under the try/catch of /meta:
none when url does not parse; the origin of a non-special URL is the
literal string "null". -/
def originFallback (url : String) : Option String :=
  match parseAbs (trimL url.data) with
  | some (.hier sch host _ _ _) => some (String.mk (sch ++ ':' :: '/' :: '/' :: host) ++ "/favicon.ico")
  | some (.plain _ _) => some "null/favicon.ico"
  | none => none

/-- The favicon result of /meta: a discovered link href is resolved with
absoluteUrl (null on failure), and the origin fallback is synthesized
only when no truthy link href was discovered. -/
def metaFavicon (url : String) (doc : List HtmlElement) : Option String :=
  match faviconHref doc with
  | some f => absoluteUrl url f
  | none => originFallback url

/-- The title of /meta: og:title content, else the first title element
text, else the request url, each step skipped when falsy. -/
def metaTitle (url : String) (doc : List HtmlElement) : String :=
  match jsTruthy (firstAttrOf doc "meta" "property" "og:title" "content") with
  | some t => t
  | none =>
    match jsTruthy ((doc.find? (fun el => el.tag == "title")).map HtmlElement.text) with
    | some t => t
    | none => url

/-- GET /meta: 400 on a falsy url parameter; any throw in the handler
body (fetch failure, body read failure) degrades to
json with title = url and favicon = null; otherwise the extracted
title and favicon under status 200. -/
def metaHandler (url : Option String) (fetched : Option (List HtmlElement)) : MetaResp :=
  match url with
  | none => .badRequest
  | some u =>
    if u == "" then .badRequest
    else
      match fetched with
      | none => .ok u none
      | some doc => .ok (metaTitle u doc) (metaFavicon u doc)

-- ### Helper lemmas: attribute lists

theorem attrsGet_set_self (l : List (String × String)) (a v : String) :
    attrsGet (attrsSet l a v) a = some v := by
  induction l with
  | nil => simp [attrsSet, attrsGet]
  | cons p rest ih =>
    obtain ⟨n, w⟩ := p
    by_cases h : n = a
    · simp [attrsSet, attrsGet, h]
    · simp [attrsSet, attrsGet, h, ih]


theorem attrsGet_set_ne (l : List (String × String)) (a b v : String) (h : b ≠ a) :
    attrsGet (attrsSet l a v) b = attrsGet l b := by
  induction l with
  | nil => simp [attrsSet, attrsGet, Ne.symm h]
  | cons p rest ih =>
    obtain ⟨n, w⟩ := p
    by_cases hn : n = a
    · subst hn
      simp [attrsSet, attrsGet, Ne.symm h]
    · simp [attrsSet, attrsGet, hn, ih]

theorem setAttr_tag (el : HtmlElement) (a v : String) : (el.setAttr a v).tag = el.tag := rfl

theorem setAttr_attr_self (el : HtmlElement) (a v : String) :
    (el.setAttr a v).attr a = some v := attrsGet_set_self el.attrs a v

theorem setAttr_attr_ne (el : HtmlElement) (a b v : String) (h : b ≠ a) :
    (el.setAttr a v).attr b = el.attr b := attrsGet_set_ne el.attrs a b v h

-- ### Helper lemmas: tryRewriteAttr

theorem tryRewriteAttr_tag (el : HtmlElement) (a : String) (f : String → Option String) :
    (tryRewriteAttr el a f).tag = el.tag := by
  cases hv : el.attr a with
  | none => simp [tryRewriteAttr, hv]
  | some v =>
    cases hfv : f v with
    | none => simp [tryRewriteAttr, hv, hfv]
    | some v2 => simp [tryRewriteAttr, hv, hfv, setAttr_tag]

theorem tryRewriteAttr_attr_ne (el : HtmlElement) (a : String) (f : String → Option String)
    (b : String) (h : b ≠ a) : (tryRewriteAttr el a f).attr b = el.attr b := by
  cases hv : el.attr a with
  | none => simp [tryRewriteAttr, hv]
  | some v =>
    cases hfv : f v with
    | none => simp [tryRewriteAttr, hv, hfv]
    | some v2 => simp [tryRewriteAttr, hv, hfv, setAttr_attr_ne el a b v2 h]

theorem tryRewriteAttr_noneA (el : HtmlElement) (a : String) (f : String → Option String)
    (h : el.attr a = none) : tryRewriteAttr el a f = el := by
  simp [tryRewriteAttr, h]

theorem tryRewriteAttr_noneF (el : HtmlElement) (a : String) (f : String → Option String)
    (v : String) (h : el.attr a = some v) (hf : f v = none) : tryRewriteAttr el a f = el := by
  simp [tryRewriteAttr, h, hf]

theorem tryRewriteAttr_some (el : HtmlElement) (a : String) (f : String → Option String)
    (v v2 : String) (h : el.attr a = some v) (hf : f v = some v2) :
    (tryRewriteAttr el a f).attr a = some v2 := by
  simp [tryRewriteAttr, h, hf, setAttr_attr_self]

theorem tryRewriteAttr_cases (el : HtmlElement) (a : String) (f : String → Option String) :
    (tryRewriteAttr el a f).attr a = el.attr a
      ∨ ∃ v v2, el.attr a = some v ∧ f v = some v2 ∧ (tryRewriteAttr el a f).attr a = some v2 := by
  cases hv : el.attr a with
  | none => exact Or.inl (by rw [tryRewriteAttr_noneA el a f hv]; exact hv)
  | some v =>
    cases hf : f v with
    | none => exact Or.inl (by rw [tryRewriteAttr_noneF el a f v hv hf]; exact hv)
    | some v2 => exact Or.inr ⟨v, v2, rfl, hf, tryRewriteAttr_some el a f v v2 hv hf⟩

-- ### Helper lemmas: encodeURIComponent output is made of safe characters

theorem charToNatLt (c : Char) : c.toNat < 1114112 := by
  have h : c.val.toNat < 55296 ∨ (57344 ≤ c.val.toNat ∧ c.val.toNat < 1114112) := c.valid
  have he : c.toNat = c.val.toNat := rfl
  omega

theorem hexDig_refChar : ∀ n : Nat, n < 16 → refChar (hexDig n) = true := by decide

theorem utf8Bytes_lt (n : Nat) (hn : n < 1114112) : ∀ b ∈ utf8Bytes n, b < 256 := by
  intro b hb
  unfold utf8Bytes at hb
  split at hb
  · simp only [List.mem_cons, List.not_mem_nil, or_false] at hb
    omega
  · split at hb
    · simp only [List.mem_cons, List.not_mem_nil, or_false] at hb
      rcases hb with rfl | rfl <;> omega
    · split at hb
      · simp only [List.mem_cons, List.not_mem_nil, or_false] at hb
        rcases hb with rfl | rfl | rfl <;> omega
      · simp only [List.mem_cons, List.not_mem_nil, or_false] at hb
        rcases hb with rfl | rfl | rfl | rfl <;> omega

theorem foldrBytes_all (bs : List Nat) (h : ∀ b ∈ bs, b < 256) :
    (bs.foldr (fun b acc => '%' :: hexDig (b / 16) :: hexDig (b % 16) :: acc) []).all refChar
      = true := by
  induction bs with
  | nil => rfl
  | cons b rest ih =>
    simp only [List.foldr_cons, List.all_cons]
    rw [ih (fun x hx => h x (List.mem_cons_of_mem b hx))]
    have hb : b < 256 := h b (List.mem_cons_self b rest)
    rw [hexDig_refChar _ (by omega), hexDig_refChar _ (by omega)]
    rfl

theorem encChar_all (c : Char) : (encChar c).all refChar = true := by
  unfold encChar
  split
  · rename_i h
    simp only [List.all_cons, List.all_nil, Bool.and_true]
    unfold refChar
    rw [h]
    rfl
  · exact foldrBytes_all _ (utf8Bytes_lt c.toNat (charToNatLt c))

theorem encodeL_all (l : List Char) : (encodeL l).all refChar = true := by
  induction l with
  | nil => rfl
  | cons c rest ih =>
    unfold encodeL
    rw [List.all_append, encChar_all, ih]
    rfl

-- ### Helper lemmas: endpoint references are well-formed and same-origin

theorem listStarts_append_self (p x : List Char) : listStarts (p ++ x) p = true := by
  induction p with
  | nil => simp [listStarts]
  | cons c rest ih => simp [listStarts, ih]

theorem listStarts_notSlash (c d : Char) (L : List Char) (h : (d == '/') = false) :
    listStarts (c :: d :: L) ('/' :: '/' :: []) = false := by
  simp [listStarts, h]

theorem sameOrigin_navRef (abs : String) : sameOriginEndpointRef (navRef abs) = true := by
  have h1 : strStarts (navRef abs) "/proxy?url=" = true := by
    unfold strStarts navRef
    rw [String.data_append]
    exact listStarts_append_self _ _
  have hd : (navRef abs).data = '/' :: 'p' :: ("roxy?url=".data ++ (encodeURIComponent abs).data) := by
    show ("/proxy?url=" ++ encodeURIComponent abs).data = _
    rw [String.data_append]
    rfl
  have h2 : strStarts (navRef abs) "//" = false := by
    unfold strStarts
    rw [hd]
    exact listStarts_notSlash _ _ _ rfl
  have h3 : (navRef abs).data.all refChar = true := by
    unfold navRef
    rw [String.data_append, List.all_append]
    have he : (encodeURIComponent abs).data.all refChar = true := encodeL_all abs.data
    rw [he]
    decide
  unfold sameOriginEndpointRef
  rw [h1, h2, h3]
  rfl

theorem sameOrigin_assetRef (abs : String) : sameOriginEndpointRef (assetRef abs) = true := by
  have h1 : strStarts (assetRef abs) "/asset?url=" = true := by
    unfold strStarts assetRef
    rw [String.data_append]
    exact listStarts_append_self _ _
  have hd : (assetRef abs).data = '/' :: 'a' :: ("sset?url=".data ++ (encodeURIComponent abs).data) := by
    show ("/asset?url=" ++ encodeURIComponent abs).data = _
    rw [String.data_append]
    rfl
  have h2 : strStarts (assetRef abs) "//" = false := by
    unfold strStarts
    rw [hd]
    exact listStarts_notSlash _ _ _ rfl
  have h3 : (assetRef abs).data.all refChar = true := by
    unfold assetRef
    rw [String.data_append, List.all_append]
    have he : (encodeURIComponent abs).data.all refChar = true := encodeL_all abs.data
    rw [he]
    decide
  unfold sameOriginEndpointRef
  rw [h1, h2, h3]
  rfl

-- ### Helper lemmas: each rewriting pass either keeps an attribute or
-- ### writes an endpoint reference

theorem pass_attr_step (el : HtmlElement) (attrName : String) (f : String → Option String)
    (hgood : ∀ v w, f v = some w → sameOriginEndpointRef w = true)
    (a v2 : String) (h : (tryRewriteAttr el attrName f).attr a = some v2) :
    el.attr a = some v2 ∨ sameOriginEndpointRef v2 = true := by
  by_cases ha : a = attrName
  · subst ha
    rcases tryRewriteAttr_cases el a f with hc | ⟨v, w, hv, hf, hres⟩
    · rw [hc] at h
      exact Or.inl h
    · rw [hres] at h
      cases h
      exact Or.inr (hgood v _ hf)
  · rw [tryRewriteAttr_attr_ne el attrName f a ha] at h
    exact Or.inl h

theorem pass_attr_only (el : HtmlElement) (attrName : String) (f : String → Option String)
    (a v2 : String) (h : (tryRewriteAttr el attrName f).attr a = some v2) :
    el.attr a = some v2 ∨ a = attrName := by
  by_cases ha : a = attrName
  · exact Or.inr ha
  · rw [tryRewriteAttr_attr_ne el attrName f a ha] at h
    exact Or.inl h

theorem anchorPass_step (base : String) (el : HtmlElement) (a v2 : String)
    (h : (anchorPass base el).attr a = some v2) :
    el.attr a = some v2 ∨ sameOriginEndpointRef v2 = true := by
  unfold anchorPass at h
  split at h
  · refine pass_attr_step el "href" _ ?_ a v2 h
    intro v w hf
    split at hf
    · simp at hf
    · cases habs : absoluteUrl base v with
      | none => rw [habs] at hf; simp at hf
      | some abs =>
        rw [habs] at hf
        simp only [Option.map_some'] at hf
        cases hf
        exact sameOrigin_navRef abs
  · exact Or.inl h

theorem imgSrcPass_step (base : String) (el : HtmlElement) (a v2 : String)
    (h : (imgSrcPass base el).attr a = some v2) :
    el.attr a = some v2 ∨ sameOriginEndpointRef v2 = true := by
  unfold imgSrcPass at h
  split at h
  · refine pass_attr_step el "src" _ ?_ a v2 h
    intro v w hf
    cases habs : absoluteUrl base v with
    | none => rw [habs] at hf; simp at hf
    | some abs =>
      rw [habs] at hf
      simp only [Option.map_some'] at hf
      cases hf
      exact sameOrigin_assetRef abs
  · exact Or.inl h

theorem scriptSrcPass_step (base : String) (el : HtmlElement) (a v2 : String)
    (h : (scriptSrcPass base el).attr a = some v2) :
    el.attr a = some v2 ∨ sameOriginEndpointRef v2 = true := by
  unfold scriptSrcPass at h
  split at h
  · refine pass_attr_step el "src" _ ?_ a v2 h
    intro v w hf
    cases habs : absoluteUrl base v with
    | none => rw [habs] at hf; simp at hf
    | some abs =>
      rw [habs] at hf
      simp only [Option.map_some'] at hf
      cases hf
      exact sameOrigin_assetRef abs
  · exact Or.inl h

theorem linkPass_step (base : String) (el : HtmlElement) (a v2 : String)
    (h : (linkPass base el).attr a = some v2) :
    el.attr a = some v2 ∨ sameOriginEndpointRef v2 = true := by
  unfold linkPass at h
  split at h
  · refine pass_attr_step el "href" _ ?_ a v2 h
    intro v w hf
    cases habs : absoluteUrl base v with
    | none => rw [habs] at hf; simp at hf
    | some abs =>
      rw [habs] at hf
      simp only [Option.map_some'] at hf
      cases hf
      split
      · exact sameOrigin_assetRef abs
      · exact sameOrigin_navRef abs
  · exact Or.inl h

theorem stylePass_step (base : String) (el : HtmlElement) (a v2 : String)
    (h : (stylePass base el).attr a = some v2) :
    el.attr a = some v2 ∨ a = "style" := by
  exact pass_attr_only el "style" _ a v2 h

theorem srcsetPass_step (base : String) (el : HtmlElement) (a v2 : String)
    (h : (srcsetPass base el).attr a = some v2) :
    el.attr a = some v2 ∨ a = "srcset" := by
  unfold srcsetPass at h
  split at h
  · exact pass_attr_only el "srcset" _ a v2 h
  · exact Or.inl h

-- ### Helper lemmas: pass skipping and tag preservation

theorem anchorPass_skip (base : String) (el : HtmlElement) (h : el.tag ≠ "a") :
    anchorPass base el = el := by
  unfold anchorPass
  rw [if_neg h]

theorem imgSrcPass_skip (base : String) (el : HtmlElement) (h : el.tag ≠ "img") :
    imgSrcPass base el = el := by
  unfold imgSrcPass
  rw [if_neg h]

theorem scriptSrcPass_skip (base : String) (el : HtmlElement) (h : el.tag ≠ "script") :
    scriptSrcPass base el = el := by
  unfold scriptSrcPass
  rw [if_neg h]

theorem linkPass_skip (base : String) (el : HtmlElement) (h : el.tag ≠ "link") :
    linkPass base el = el := by
  unfold linkPass
  rw [if_neg h]

theorem srcsetPass_skip (base : String) (el : HtmlElement) (h : el.tag ≠ "img") :
    srcsetPass base el = el := by
  unfold srcsetPass
  rw [if_neg h]

theorem anchorPass_tag (base : String) (el : HtmlElement) :
    (anchorPass base el).tag = el.tag := by
  unfold anchorPass
  split
  · exact tryRewriteAttr_tag el "href" _
  · rfl

theorem linkPass_tag (base : String) (el : HtmlElement) :
    (linkPass base el).tag = el.tag := by
  unfold linkPass
  split
  · exact tryRewriteAttr_tag el "href" _
  · rfl

theorem stylePass_tag (base : String) (el : HtmlElement) :
    (stylePass base el).tag = el.tag := tryRewriteAttr_tag el "style" _

theorem stylePass_attr_ne (base : String) (el : HtmlElement) (b : String) (h : b ≠ "style") :
    (stylePass base el).attr b = el.attr b := tryRewriteAttr_attr_ne el "style" _ b h

-- ### Helper lemmas: reducing rewriteElement on an anchor or a link

theorem rewriteElement_href_of_a (base : String) (el : HtmlElement) (h : el.tag = "a") :
    (rewriteElement base el).attr "href" = (anchorPass base el).attr "href" := by
  unfold rewriteElement
  have t1 : (anchorPass base el).tag = "a" := by rw [anchorPass_tag, h]
  rw [imgSrcPass_skip base _ (by rw [t1]; decide)]
  rw [scriptSrcPass_skip base _ (by rw [t1]; decide)]
  rw [linkPass_skip base _ (by rw [t1]; decide)]
  rw [srcsetPass_skip base _ (by rw [stylePass_tag, t1]; decide)]
  rw [stylePass_attr_ne base _ "href" (by decide)]

theorem rewriteElement_href_of_link (base : String) (el : HtmlElement) (h : el.tag = "link") :
    (rewriteElement base el).attr "href" = (linkPass base el).attr "href" := by
  unfold rewriteElement
  rw [anchorPass_skip base el (by rw [h]; decide)]
  rw [imgSrcPass_skip base el (by rw [h]; decide)]
  rw [scriptSrcPass_skip base el (by rw [h]; decide)]
  have t1 : (linkPass base el).tag = "link" := by rw [linkPass_tag, h]
  rw [srcsetPass_skip base _ (by rw [stylePass_tag, t1]; decide)]
  rw [stylePass_attr_ne base _ "href" (by decide)]

-- ### C1

/-- C1: every attribute value that the rewriting passes actually change
is a well-formed same-origin reference to the /proxy or /asset endpoint;
the exceptions are the composite style and srcset attribute values, for
which the granularity is, respectively, each url reference that the style
scanner replaced (always an /asset endpoint reference rendered inside a
quoted url form), and each srcset candidate, which is either passed
through unchanged or rewritten to an /asset endpoint reference followed
by its descriptor suffix. Values the passes did not change (skipped or
resolution-failed references) are the only ones that can remain
cross-origin. -/
theorem c1_rewrites_same_origin :
    (∀ (base : String) (el : HtmlElement) (a v2 : String),
      (rewriteElement base el).attr a = some v2 →
        el.attr a = some v2 ∨ a = "style" ∨ a = "srcset" ∨ sameOriginEndpointRef v2 = true)
    ∧ (∀ base s : String, rewriteStyleValue base s = String.mk (piecesData (stylePieces base s))
        ∧ ∀ p ∈ stylePieces base s, ∀ abs, p = StylePiece.asset abs →
            renderPiece p = "url(" ++ sqs ++ assetRef abs ++ sqs ++ ")"
              ∧ sameOriginEndpointRef (assetRef abs) = true)
    ∧ (∀ base p : String, rewriteCandidate base p = p
        ∨ ∃ abs, rewriteCandidate base p = assetRef abs ++ candDescSuffix p
            ∧ sameOriginEndpointRef (assetRef abs) = true) := by
  refine ⟨?_, ?_, ?_⟩
  · intro base el a v2 h
    unfold rewriteElement at h
    rcases srcsetPass_step base _ a v2 h with h | hs
    · rcases stylePass_step base _ a v2 h with h | hs
      · rcases linkPass_step base _ a v2 h with h | hs
        · rcases scriptSrcPass_step base _ a v2 h with h | hs
          · rcases imgSrcPass_step base _ a v2 h with h | hs
            · rcases anchorPass_step base _ a v2 h with h | hs
              · exact Or.inl h
              · exact Or.inr (Or.inr (Or.inr hs))
            · exact Or.inr (Or.inr (Or.inr hs))
          · exact Or.inr (Or.inr (Or.inr hs))
        · exact Or.inr (Or.inr (Or.inr hs))
      · exact Or.inr (Or.inl hs)
    · exact Or.inr (Or.inr (Or.inl hs))
  · intro base s
    refine ⟨rfl, ?_⟩
    intro p _ abs hp
    subst hp
    exact ⟨rfl, sameOrigin_assetRef abs⟩
  · intro base p
    unfold rewriteCandidate
    cases habs : absoluteUrl base (candUrl p) with
    | none => exact Or.inl rfl
    | some abs => exact Or.inr ⟨abs, rfl, sameOrigin_assetRef abs⟩

/-- C1 witness: the generic invariant applied at a concrete anchor whose
href was rewritten, at the style pieces of a concrete style value, and at
a concrete srcset candidate. -/
theorem c1_rewrites_same_origin_witness :
    ((⟨"a", [("href", "/about")], ""⟩ : HtmlElement).attr "href"
        = some "/proxy?url=https%3A%2F%2Fexample.com%2Fabout"
      ∨ "href" = "style" ∨ "href" = "srcset"
      ∨ sameOriginEndpointRef "/proxy?url=https%3A%2F%2Fexample.com%2Fabout" = true)
    ∧ (rewriteCandidate "https://example.com/" "a.png 1x" = "a.png 1x"
      ∨ ∃ abs, rewriteCandidate "https://example.com/" "a.png 1x"
            = assetRef abs ++ candDescSuffix "a.png 1x"
          ∧ sameOriginEndpointRef (assetRef abs) = true) := by
  constructor
  · exact c1_rewrites_same_origin.1 "https://example.com/" ⟨"a", [("href", "/about")], ""⟩
      "href" "/proxy?url=https%3A%2F%2Fexample.com%2Fabout" (by decide)
  · exact c1_rewrites_same_origin.2.2 "https://example.com/" "a.png 1x"

-- ### Helper lemmas: every parsed URL keeps a nonempty scheme

theorem splitSchemeGo_ne (l : List Char) : ∀ (acc sch rest : List Char),
    splitSchemeGo acc l = some (sch, rest) → acc ≠ [] → sch ≠ [] := by
  induction l with
  | nil => intro acc sch rest h _; simp [splitSchemeGo] at h
  | cons c tail ih =>
    intro acc sch rest h hacc
    rw [show splitSchemeGo acc (c :: tail)
        = (if c == ':' then some (acc.reverse, tail)
           else if isSchemeChar c then splitSchemeGo (c :: acc) tail else none) from rfl] at h
    split at h
    · cases h
      simpa using hacc
    · split at h
      · exact ih (c :: acc) sch rest h (by simp)
      · simp at h

theorem splitScheme_ne (l sch rest : List Char) (h : splitScheme l = some (sch, rest)) :
    sch ≠ [] := by
  cases l with
  | nil => simp [splitScheme] at h
  | cons c tail =>
    rw [show splitScheme (c :: tail)
        = (if isAsciiAlpha c then splitSchemeGo [c] tail else none) from rfl] at h
    split at h
    · exact splitSchemeGo_ne tail [c] sch rest h (by simp)
    · simp at h

theorem lowerL_ne (l : List Char) (h : l ≠ []) : lowerL l ≠ [] := by
  simpa [lowerL] using h

theorem hostParse_scheme (sch host after : List Char) (u : ModelUrl)
    (h : hostParse sch host after = some u) : schemeOf u = sch := by
  unfold hostParse at h
  split at h
  · simp at h
  · split at h
    · simp at h
    · rcases hs : splitPQF after with ⟨p, q, f⟩
      rw [hs] at h
      cases h
      rfl

theorem parseAbsHier_scheme (sch rest : List Char) (u : ModelUrl)
    (h : parseAbsHier sch rest = some u) : schemeOf u = sch := by
  unfold parseAbsHier at h
  exact hostParse_scheme _ _ _ u h

theorem parseRelNoScheme_scheme (b : ModelUrl) (l : List Char) (u : ModelUrl)
    (h : parseRelNoScheme b l = some u) : schemeOf u = schemeOf b := by
  cases b with
  | plain s r => simp [parseRelNoScheme] at h
  | hier sch host p q f =>
    cases l with
    | nil =>
      simp only [parseRelNoScheme] at h
      cases h
      rfl
    | cons c rest =>
      simp only [parseRelNoScheme] at h
      split at h
      · cases h
        rfl
      · split at h
        · rcases hs : splitAtChar '#' rest with ⟨qq, ff⟩
          rw [hs] at h
          cases h
          rfl
        · split at h
          · split at h
            · rw [parseAbsHier_scheme _ _ _ h]
              rfl
            · rcases hs : splitPQF (c :: rest) with ⟨pp, qq, ff⟩
              rw [hs] at h
              cases h
              rfl
          · rcases hs : splitPQF (c :: rest) with ⟨pp, qq, ff⟩
            rw [hs] at h
            cases h
            rfl

theorem parseAbs_scheme (l : List Char) (u : ModelUrl) (h : parseAbs l = some u) :
    schemeOf u ≠ [] := by
  unfold parseAbs at h
  split at h
  · simp at h
  · rename_i sch rest heq
    split at h
    · rw [parseAbsHier_scheme _ _ _ h]
      exact lowerL_ne sch (splitScheme_ne l sch rest heq)
    · cases h
      exact lowerL_ne sch (splitScheme_ne l sch rest heq)

theorem parseWithBaseHier_scheme (bs : List Char) (b : ModelUrl) (sch rest : List Char)
    (u : ModelUrl) (hb : schemeOf b ≠ []) (hsch : sch ≠ [])
    (h : parseWithBaseHier bs b sch rest = some u) : schemeOf u ≠ [] := by
  unfold parseWithBaseHier at h
  split at h
  · rw [parseRelNoScheme_scheme _ _ _ h]
    exact hb
  · rw [parseAbsHier_scheme _ _ _ h]
    exact lowerL_ne sch hsch

theorem parseWithBase_scheme (b : ModelUrl) (l : List Char) (u : ModelUrl)
    (hb : schemeOf b ≠ []) (h : parseWithBase b l = some u) : schemeOf u ≠ [] := by
  unfold parseWithBase at h
  split at h
  · rename_i sch rest heq
    split at h
    · split at h
      · exact parseWithBaseHier_scheme _ _ sch _ u hb (splitScheme_ne l sch rest heq) h
      · rw [parseAbsHier_scheme _ _ _ h]
        exact lowerL_ne sch (splitScheme_ne l sch rest heq)
    · cases h
      exact lowerL_ne sch (splitScheme_ne l sch rest heq)
  · rw [parseRelNoScheme_scheme _ _ _ h]
    exact hb

theorem serializeUrl_scheme (u : ModelUrl) :
    ∃ rest, serializeUrl u = schemeOf u ++ ':' :: rest := by
  cases u with
  | hier sch host p q f =>
    refine ⟨'/' :: '/' :: (host ++ (if p.isEmpty then ['/'] else p)
      ++ (match q with | some qq => '?' :: qq | none => [])
      ++ (match f with | some ff => '#' :: ff | none => [])), ?_⟩
    simp [serializeUrl, schemeOf, List.append_assoc]
  | plain sch rest => exact ⟨rest, rfl⟩

theorem absoluteUrl_scheme (b r s : String) (h : absoluteUrl b r = some s) :
    ∃ sch rest, s.data = sch ++ ':' :: rest ∧ sch ≠ [] := by
  unfold absoluteUrl absoluteUrlL at h
  split at h
  · simp at h
  · rename_i bu heq
    cases hw : parseWithBase bu (trimL r.data) with
    | none => rw [hw] at h; simp at h
    | some u =>
      rw [hw] at h
      simp only [Option.map_some'] at h
      cases h
      obtain ⟨rest, hserial⟩ := serializeUrl_scheme u
      refine ⟨schemeOf u, rest, ?_, ?_⟩
      · show serializeUrl u = _
        exact hserial
      · exact parseWithBase_scheme bu _ u (parseAbs_scheme _ bu heq) hw

-- ### C2

/-- C2 counterexample: absoluteUrl does not return null for javascript:
or mailto: references nor for empty input — a javascript: reference is
returned as is, a mailto: reference as is, and the empty reference
resolves to the base URL (its fragment dropped); the javascript: result
does not carry an http or https scheme. -/
theorem c2_resolver_cex :
    absoluteUrl "https://example.com/" "javascript:alert(1)" = some "javascript:alert(1)"
    ∧ absoluteUrl "https://example.com/" "mailto:user@example.com" = some "mailto:user@example.com"
    ∧ absoluteUrl "https://example.com/p?q#f" "" = some "https://example.com/p?q"
    ∧ strStarts "javascript:alert(1)" "http" = false := by decide

/-- C2 amended: absoluteUrl returns null exactly when the URL
constructor throws — for instance on an unparsable base (whatever the
reference), or on a special-scheme reference with an empty host; every
non-null result is an absolute URL, carrying a nonempty scheme before a
colon, but that scheme is not restricted to http or https. -/
theorem c2_resolver_amended :
    (∀ b r s : String, absoluteUrl b r = some s →
      ∃ sch rest, s.data = sch ++ ':' :: rest ∧ sch ≠ [])
    ∧ absoluteUrl "not a url" "https://example.com/" = none
    ∧ absoluteUrl "https://example.com/" "http://" = none := by
  exact ⟨fun b r s h => absoluteUrl_scheme b r s h, by decide, by decide⟩

/-- C2 witness: the amended scheme invariant applied at a concrete
resolution. -/
theorem c2_resolver_amended_witness :
    ∃ sch rest, ("https://example.com/x" : String).data = sch ++ ':' :: rest ∧ sch ≠ [] :=
  c2_resolver_amended.1 "https://example.com/" "x" "https://example.com/x" (by decide)

-- ### C3

/-- C3 counterexample: an anchor with an empty href is skipped by the
falsy guard even though an empty reference is not covered by the
anchor-only and javascript: skip conditions and resolves successfully
(to the base URL); the claim as stated would require it to be rewritten
to a navigate reference, but the code leaves it untouched. -/
theorem c3_anchor_cex :
    absoluteUrl "https://example.com/" "" = some "https://example.com/"
    ∧ strStarts "" "#" = false
    ∧ strStarts "" "javascript:" = false
    ∧ (rewriteElement "https://example.com/" ⟨"a", [("href", "")], ""⟩).attr "href" = some ""
    ∧ ("" : String) ≠ navRef "https://example.com/" := by decide

/-- C3 amended: for every anchor element with an href, the href is left
unchanged when it is empty or starts with # or javascript:; otherwise it
is resolved against the base and replaced by the navigate reference on
success and left unchanged on failure. At base https://example.com/ the
anchor href /about becomes the navigate reference encoding
https://example.com/about. -/
theorem c3_anchor_rewrite :
    (∀ (base : String) (el : HtmlElement) (href : String),
      el.tag = "a" → el.attr "href" = some href →
        ((href == "" || strStarts href "#" || strStarts href "javascript:") = true →
            (rewriteElement base el).attr "href" = some href)
        ∧ (∀ abs, (href == "" || strStarts href "#" || strStarts href "javascript:") = false →
            absoluteUrl base href = some abs →
            (rewriteElement base el).attr "href" = some (navRef abs))
        ∧ ((href == "" || strStarts href "#" || strStarts href "javascript:") = false →
            absoluteUrl base href = none →
            (rewriteElement base el).attr "href" = some href))
    ∧ (rewriteElement "https://example.com/" ⟨"a", [("href", "/about")], ""⟩).attr "href"
        = some "/proxy?url=https%3A%2F%2Fexample.com%2Fabout" := by
  constructor
  · intro base el href htag hh
    rw [rewriteElement_href_of_a base el htag]
    unfold anchorPass
    rw [if_pos htag]
    refine ⟨?_, ?_, ?_⟩
    · intro hskip
      rw [tryRewriteAttr_noneF el "href" _ href hh (by simp [hskip])]
      exact hh
    · intro abs hskip habs
      exact tryRewriteAttr_some el "href" _ href (navRef abs) hh (by simp [hskip, habs])
    · intro hskip habs
      rw [tryRewriteAttr_noneF el "href" _ href hh (by simp [hskip, habs])]
      exact hh
  · decide

/-- C3 witness: the amended anchor rule applied at a concrete skipped
anchor reference. -/
theorem c3_anchor_rewrite_witness :
    (rewriteElement "https://example.com/" ⟨"a", [("href", "#top")], ""⟩).attr "href"
      = some "#top" :=
  (c3_anchor_rewrite.1 "https://example.com/" ⟨"a", [("href", "#top")], ""⟩ "#top" rfl
    (by decide)).1 (by decide)

-- ### C4

/-- C4 counterexample: the asset relay does not forward the upstream
status — a 404 upstream response is relayed with status 200. -/
theorem c4_asset_relay_cex :
    assetHandler (some "https://example.com/x") (some ⟨404, some "text/plain", [72, 105], true⟩)
      = ⟨200, some "text/plain", .bytes [72, 105]⟩
    ∧ (200 : Nat) ≠ 404 := by decide

/-- C4 amended: on upstream success the relay responds with its own
status 200 whatever the upstream status (the body of a non-2xx upstream
response is still relayed); the upstream content-type is forwarded
verbatim when present and nonempty and omitted when absent; on upstream
fetch failure the relay responds 500 with the distinct body
"Asset fetch failed" instead of forwarding bytes. -/
theorem c4_asset_relay_amended :
    (∀ (u : String) (r : Upstream), (u == "") = false → r.bodyStream = true →
      (assetHandler (some u) (some r)).status = 200
      ∧ (assetHandler (some u) (some r)).body = .bytes r.body
      ∧ (r.contentType = none → (assetHandler (some u) (some r)).contentType = none)
      ∧ (∀ c, r.contentType = some c → (c == "") = false →
          (assetHandler (some u) (some r)).contentType = some c))
    ∧ (∀ u : String, (u == "") = false →
        assetHandler (some u) none = ⟨500, none, .text "Asset fetch failed"⟩) := by
  constructor
  · intro u r hu hs
    have hred : assetHandler (some u) (some r) = ⟨200, assetCT r, .bytes r.body⟩ := by
      simp [assetHandler, hu, hs]
    refine ⟨by rw [hred], by rw [hred], ?_, ?_⟩
    · intro hct
      rw [hred]
      simp [assetCT, hct]
    · intro c hct hc
      rw [hred]
      simp [assetCT, hct, hc]
  · intro u hu
    simp [assetHandler, hu]

/-- C4 witness: the amended relay behaviour applied at a concrete 404
upstream response whose content-type is forwarded. -/
theorem c4_asset_relay_amended_witness :
    (assetHandler (some "https://example.com/x")
        (some ⟨404, some "text/plain", [72, 105], true⟩)).contentType = some "text/plain" :=
  (c4_asset_relay_amended.1 "https://example.com/x" ⟨404, some "text/plain", [72, 105], true⟩
    rfl rfl).2.2.2 "text/plain" rfl rfl

-- ### C5

/-- C5: the non-HTML branch of the page-load handler relays the upstream
body byte-identically but drops the upstream content-type instead of
forwarding it (the piped response carries no content-type header at
all), contradicting both the specification and the adjacent source
comment that the bytes are piped via the /asset logic, which does
forward the header: at a concrete image/png upstream response the output
bytes equal the upstream body while the output carries no content-type. -/
theorem c5_nonhtml_relay_bug :
    proxyHandler (some "https://example.com/logo.png")
        (some ⟨200, some "image/png", [137, 80, 78, 71], true⟩)
        (some ⟨200, some "image/png", [137, 80, 78, 71], true⟩) []
      = ⟨200, none, .bytes [137, 80, 78, 71]⟩
    ∧ (⟨200, none, .bytes [137, 80, 78, 71]⟩ : HttpOut).body
        = .bytes (⟨200, some "image/png", [137, 80, 78, 71], true⟩ : Upstream).body
    ∧ (⟨200, none, .bytes [137, 80, 78, 71]⟩ : HttpOut).contentType ≠ some "image/png" := by
  decide

-- ### C9

/-- C9 counterexample: a metadata request whose url parameter is missing
or empty is answered with a hard 400 error, not with the degraded
title/favicon JSON. -/
theorem c9_meta_cex :
    metaHandler (some "") none = .badRequest
    ∧ MetaResp.statusOf .badRequest = 400
    ∧ MetaResp.badRequest ≠ MetaResp.ok "" none := by decide

/-- C9 amended: for every request carrying a nonempty url parameter the
metadata lookup never responds with a hard error — every response is
status 200, and any failure of the upstream fetch or extraction yields
exactly title = url and favicon = null; a missing or empty url parameter
is answered 400. -/
theorem c9_meta_amended :
    (∀ (u : String) (fetched : Option (List HtmlElement)), (u == "") = false →
      (metaHandler (some u) fetched).statusOf = 200
      ∧ metaHandler (some u) none = .ok u none)
    ∧ (∀ fetched : Option (List HtmlElement),
        metaHandler (some "") fetched = .badRequest ∧ metaHandler none fetched = .badRequest) := by
  constructor
  · intro u fetched hu
    constructor
    · cases fetched with
      | none => simp [metaHandler, hu, MetaResp.statusOf]
      | some doc => simp [metaHandler, hu, MetaResp.statusOf]
    · simp [metaHandler, hu]
  · intro fetched
    exact ⟨rfl, rfl⟩

/-- C9 witness: the amended degradation rule applied at a concrete
failed lookup. -/
theorem c9_meta_amended_witness :
    (metaHandler (some "https://x.com/") none).statusOf = 200
    ∧ metaHandler (some "https://x.com/") none = .ok "https://x.com/" none :=
  c9_meta_amended.1 "https://x.com/" none rfl

-- ### C10

/-- C10: when the favicon link chain discovers an href, the returned
favicon is exactly absoluteUrl of that href — null when resolution
fails, never the origin fallback; the synthesized origin favicon.ico fallback is
computed only when no truthy favicon link href was discovered; at a
concrete document whose icon link href http:// fails to resolve the
favicon is null. -/
theorem c10_meta_favicon :
    (∀ (url : String) (doc : List HtmlElement) (h : String),
      faviconHref doc = some h → metaFavicon url doc = absoluteUrl url h)
    ∧ (∀ (url : String) (doc : List HtmlElement),
      faviconHref doc = none → metaFavicon url doc = originFallback url)
    ∧ metaFavicon "https://example.com/" [⟨"link", [("rel", "icon"), ("href", "http://")], ""⟩]
        = none := by
  refine ⟨?_, ?_, by decide⟩
  · intro url doc h hh
    unfold metaFavicon
    rw [hh]
  · intro url doc hh
    unfold metaFavicon
    rw [hh]

/-- C10 witness: the discovered-link rule applied at a concrete document
with an unresolvable icon href. -/
theorem c10_meta_favicon_witness :
    metaFavicon "https://example.com/" [⟨"link", [("rel", "icon"), ("href", "http://")], ""⟩]
      = absoluteUrl "https://example.com/" "http://" :=
  c10_meta_favicon.1 "https://example.com/"
    [⟨"link", [("rel", "icon"), ("href", "http://")], ""⟩] "http://" (by decide)

-- ### C6

/-- C6: the srcset rewrite is the comma-split of the value, each
candidate trimmed, rewritten independently and rejoined in order with a
comma and space; a candidate whose URL token fails to resolve passes
through unchanged, and one that resolves becomes the asset reference
followed by its descriptor suffix; at a concrete two-candidate srcset
the first candidate is rewritten with its descriptor preserved and the
unresolvable second candidate passes through, in order. -/
theorem c6_srcset_rewrite :
    (∀ base s : String, rewriteSrcset base s
        = joinSep ", " ((splitOnChar ',' s.data).map
            (fun p => rewriteCandidate base (String.mk (trimL p)))))
    ∧ (∀ base p : String, absoluteUrl base (candUrl p) = none → rewriteCandidate base p = p)
    ∧ (∀ base p abs : String, absoluteUrl base (candUrl p) = some abs →
        rewriteCandidate base p = assetRef abs ++ candDescSuffix p)
    ∧ rewriteSrcset "https://example.com/" "a.png 1x, http:// 2x"
        = "/asset?url=https%3A%2F%2Fexample.com%2Fa.png 1x, http:// 2x" := by
  refine ⟨fun base s => rfl, ?_, ?_, by decide⟩
  · intro base p h
    unfold rewriteCandidate
    rw [h]
  · intro base p abs h
    unfold rewriteCandidate
    rw [h]

/-- C6 witness: the failure-passthrough rule applied at a concrete
candidate whose URL has an empty host. -/
theorem c6_srcset_rewrite_witness :
    rewriteCandidate "https://example.com/" "http:// 2x" = "http:// 2x" :=
  c6_srcset_rewrite.2.1 "https://example.com/" "http:// 2x" (by decide)

-- ### C7

/-- C7 counterexample: the stylesheet test runs over the serialized URL
truncated at the first question mark, so a fragment defeats it: the link
href p.css#frag resolves to a URL whose path component /p.css ends in
.css, yet the element is routed to the navigate endpoint, not the asset
endpoint the claim requires. -/
theorem c7_link_cex :
    absoluteUrl "https://e.com/" "p.css#frag" = some "https://e.com/p.css#frag"
    ∧ parseAbs ("https://e.com/p.css#frag" : String).data
        = some (.hier "https".data "e.com".data "/p.css".data none (some "frag".data))
    ∧ listEnds (lowerL ("/p.css" : String).data) (".css" : String).data = true
    ∧ (rewriteElement "https://e.com/" ⟨"link", [("href", "p.css#frag")], ""⟩).attr "href"
        = some "/proxy?url=https%3A%2F%2Fe.com%2Fp.css%23frag"
    ∧ "/proxy?url=https%3A%2F%2Fe.com%2Fp.css%23frag" ≠ assetRef "https://e.com/p.css#frag" := by
  decide

/-- C7 amended: a link href that resolves is routed to the asset
endpoint when the rel attribute lowercases to stylesheet or the
serialized resolved URL truncated at the first question mark ends
case-insensitively in .css (so a trailing fragment defeats the check),
and to the navigate endpoint otherwise; an href that fails to resolve is
left untouched; the stylesheet link style.css at base
https://example.com/a/ is routed to the asset endpoint carrying
https://example.com/a/style.css. -/
theorem c7_link_rewrite :
    (∀ (base : String) (el : HtmlElement) (href abs : String),
      el.tag = "link" → el.attr "href" = some href → absoluteUrl base href = some abs →
        ((lowerS ((el.attr "rel").getD "") == "stylesheet" || cssLink abs) = true →
            (rewriteElement base el).attr "href" = some (assetRef abs))
        ∧ ((lowerS ((el.attr "rel").getD "") == "stylesheet" || cssLink abs) = false →
            (rewriteElement base el).attr "href" = some (navRef abs)))
    ∧ (∀ (base : String) (el : HtmlElement) (href : String),
      el.tag = "link" → el.attr "href" = some href → absoluteUrl base href = none →
        (rewriteElement base el).attr "href" = some href)
    ∧ (rewriteElement "https://example.com/a/"
        ⟨"link", [("rel", "stylesheet"), ("href", "style.css")], ""⟩).attr "href"
        = some "/asset?url=https%3A%2F%2Fexample.com%2Fa%2Fstyle.css" := by
  refine ⟨?_, ?_, by decide⟩
  · intro base el href abs htag hh habs
    rw [rewriteElement_href_of_link base el htag]
    unfold linkPass
    rw [if_pos htag]
    constructor
    · intro hcss
      refine tryRewriteAttr_some el "href" _ href (assetRef abs) hh ?_
      show (absoluteUrl base href).map _ = _
      rw [habs]
      show some (if lowerS ((el.attr "rel").getD "") == "stylesheet" || cssLink abs
          then assetRef abs else navRef abs) = some (assetRef abs)
      rw [if_pos hcss]
    · intro hcss
      refine tryRewriteAttr_some el "href" _ href (navRef abs) hh ?_
      show (absoluteUrl base href).map _ = _
      rw [habs]
      show some (if lowerS ((el.attr "rel").getD "") == "stylesheet" || cssLink abs
          then assetRef abs else navRef abs) = some (navRef abs)
      rw [if_neg (by simp [hcss])]
  · intro base el href htag hh habs
    rw [rewriteElement_href_of_link base el htag]
    unfold linkPass
    rw [if_pos htag]
    rw [tryRewriteAttr_noneF el "href" _ href hh (by simp [habs])]
    exact hh

/-- C7 witness: the amended routing applied at a concrete canonical link
that goes to the navigate endpoint. -/
theorem c7_link_rewrite_witness :
    (rewriteElement "https://e.com/" ⟨"link", [("rel", "canonical"), ("href", "/p")], ""⟩).attr "href"
      = some (navRef "https://e.com/p") :=
  (c7_link_rewrite.1 "https://e.com/" ⟨"link", [("rel", "canonical"), ("href", "/p")], ""⟩
    "/p" "https://e.com/p" rfl (by decide) (by decide)).2 (by decide)

-- ### Helper lemmas: the style scanner reconstructs its input

theorem scanQuoted_decomp (q : Char) (l : List Char) : ∀ inner r,
    scanQuoted q l = some (inner, r) → l = inner ++ q :: ')' :: r := by
  induction l with
  | nil => intro inner r h; simp [scanQuoted] at h
  | cons c1 tl ih =>
    intro inner r h
    cases tl with
    | nil => simp [scanQuoted] at h
    | cons c2 rest =>
      rw [show scanQuoted q (c1 :: c2 :: rest)
          = (if c1 == nlc then none
             else if c1 == q && c2 == ')' then some ([], rest)
             else
               match scanQuoted q (c2 :: rest) with
               | some (inner, r) => some (c1 :: inner, r)
               | none => none) from rfl] at h
      split at h
      · simp at h
      · split at h
        · rename_i hq
          cases h
          simp only [Bool.and_eq_true, beq_iff_eq] at hq
          rw [hq.1, hq.2]
          rfl
        · cases hs : scanQuoted q (c2 :: rest) with
          | none => rw [hs] at h; simp at h
          | some pr =>
            rcases pr with ⟨inner2, r2⟩
            rw [hs] at h
            cases h
            simp [ih _ _ hs, List.cons_append]

theorem scanUnquoted_decomp (l : List Char) : ∀ inner r,
    scanUnquoted l = some (inner, r) → l = inner ++ ')' :: r := by
  induction l with
  | nil => intro inner r h; simp [scanUnquoted] at h
  | cons c tl ih =>
    intro inner r h
    rw [show scanUnquoted (c :: tl)
        = (if c == ')' then some ([], tl)
           else if c == nlc then none
           else
             match scanUnquoted tl with
             | some (inner, r) => some (c :: inner, r)
             | none => none) from rfl] at h
    split at h
    · rename_i hc
      cases h
      simp only [beq_iff_eq] at hc
      rw [hc]
      rfl
    · split at h
      · simp at h
      · cases hs : scanUnquoted tl with
        | none => rw [hs] at h; simp at h
        | some pr =>
          rcases pr with ⟨inner2, r2⟩
          rw [hs] at h
          cases h
          simp [ih _ _ hs, List.cons_append]

theorem unquotedMatch_decomp (l m inner r : List Char)
    (h : unquotedMatch l = some (m, inner, r)) : m ++ r = "url(".data ++ l := by
  unfold unquotedMatch at h
  cases hs : scanUnquoted l with
  | none => rw [hs] at h; simp at h
  | some pr =>
    rcases pr with ⟨inner2, r2⟩
    rw [hs] at h
    cases h
    simp [scanUnquoted_decomp l _ _ hs, List.append_assoc]

theorem styleMatch_decomp (l m inner r : List Char)
    (h : styleMatch l = some (m, inner, r)) : m ++ r = "url(".data ++ l := by
  cases l with
  | nil => simp [styleMatch] at h
  | cons c rest =>
    rw [show styleMatch (c :: rest)
        = (if c == sqc || c == dqc then
             match scanQuoted c rest with
             | some (inner, r) => some ("url(".data ++ c :: inner ++ [c, ')'], inner, r)
             | none => unquotedMatch (c :: rest)
           else unquotedMatch (c :: rest)) from rfl] at h
    split at h
    · cases hs : scanQuoted c rest with
      | none => rw [hs] at h; exact unquotedMatch_decomp _ _ _ _ h
      | some pr =>
        rcases pr with ⟨inner2, r2⟩
        rw [hs] at h
        cases h
        simp [scanQuoted_decomp c rest _ _ hs, List.append_assoc]
    · exact unquotedMatch_decomp _ _ _ _ h

theorem listStarts_drop (p : List Char) : ∀ l, listStarts l p = true → l = p ++ l.drop p.length := by
  induction p with
  | nil => intro l _; simp
  | cons d ds ih =>
    intro l h
    cases l with
    | nil => simp [listStarts] at h
    | cons c cs =>
      rw [show listStarts (c :: cs) (d :: ds) = ((c == d) && listStarts cs ds) from rfl] at h
      simp only [Bool.and_eq_true, beq_iff_eq] at h
      obtain ⟨h1, h2⟩ := h
      subst h1
      have hi := ih cs h2
      calc c :: cs = c :: (ds ++ cs.drop ds.length) := by rw [← hi]
        _ = (c :: ds) ++ (c :: cs).drop (c :: ds).length := by
              simp [List.cons_append, List.drop_succ_cons]

theorem stylePiecesAux_id (base : String) (hfail : ∀ i : String, absoluteUrl base i = none) :
    ∀ (fuel : Nat) (l : List Char), piecesData (stylePiecesAux base fuel l) = l := by
  intro fuel
  induction fuel with
  | zero => intro l; simp [stylePiecesAux, piecesData, renderPiece]
  | succ fuel ih =>
    intro l
    cases l with
    | nil => rfl
    | cons c rest =>
      rw [show stylePiecesAux base (fuel + 1) (c :: rest)
          = (if listStarts (c :: rest) "url(".data then
               match styleMatch ((c :: rest).drop 4) with
               | some (m, inner, restAfter) =>
                 (match absoluteUrl base (String.mk inner) with
                  | none => StylePiece.raw (String.mk m)
                  | some abs => StylePiece.asset abs) :: stylePiecesAux base fuel restAfter
               | none => .raw (String.mk [c]) :: stylePiecesAux base fuel rest
             else .raw (String.mk [c]) :: stylePiecesAux base fuel rest) from rfl]
      split
      · rename_i hurl
        cases hm : styleMatch ((c :: rest).drop 4) with
        | none => simp [piecesData, renderPiece, ih]
        | some tri =>
          rcases tri with ⟨m, inner, restAfter⟩
          show piecesData ((match absoluteUrl base (String.mk inner) with
              | none => StylePiece.raw (String.mk m)
              | some abs => StylePiece.asset abs) :: stylePiecesAux base fuel restAfter)
            = c :: rest
          rw [hfail (String.mk inner)]
          simp only [piecesData, renderPiece]
          rw [ih restAfter]
          show m ++ restAfter = c :: rest
          have hd := styleMatch_decomp _ _ _ _ hm
          have hs := listStarts_drop "url(".data (c :: rest) hurl
          have hlen : ("url(".data).length = 4 := rfl
          rw [hlen] at hs
          exact hd.trans hs.symm
      · simp [piecesData, renderPiece, ih]

-- ### C8

/-- C8: inline style url(...) references are rewritten independently:
a single-quoted reference at base https://example.com/a/ becomes the
asset reference inside a quoted url form, double-quoted and unquoted references
in one style value are each rewritten on their own, a reference that
fails to resolve is left byte for byte as written inside the surrounding
style text, and when every resolution fails the whole style value is
returned unchanged. -/
theorem c8_style_rewrite :
    rewriteStyleValue "https://example.com/a/" ("background:url(" ++ sqs ++ "bg.png" ++ sqs ++ ")")
        = "background:url(" ++ sqs ++ "/asset?url=https%3A%2F%2Fexample.com%2Fa%2Fbg.png" ++ sqs ++ ")"
    ∧ rewriteStyleValue "https://example.com/a/" ("a:url(" ++ dqs ++ "b.png" ++ dqs ++ ");c:url(d.png)")
        = "a:url(" ++ sqs ++ "/asset?url=https%3A%2F%2Fexample.com%2Fa%2Fb.png" ++ sqs
            ++ ");c:url(" ++ sqs ++ "/asset?url=https%3A%2F%2Fexample.com%2Fa%2Fd.png" ++ sqs ++ ")"
    ∧ rewriteStyleValue "https://example.com/a/" ("x:url(http://);y:url(" ++ sqs ++ "bg.png" ++ sqs ++ ")")
        = "x:url(http://);y:url(" ++ sqs ++ "/asset?url=https%3A%2F%2Fexample.com%2Fa%2Fbg.png" ++ sqs ++ ")"
    ∧ (∀ base s : String, (∀ i : String, absoluteUrl base i = none) →
        rewriteStyleValue base s = s) := by
  refine ⟨by decide, by decide, by decide, ?_⟩
  intro base s hfail
  unfold rewriteStyleValue stylePieces
  rw [stylePiecesAux_id base hfail (s.data.length + 1) s.data]

/-- C8 witness: the all-failures rule applied at an unparsable base,
where every resolution fails and the style text passes through
unchanged. -/
theorem c8_style_rewrite_witness :
    rewriteStyleValue "x" "a:url(b.png)" = "a:url(b.png)" :=
  c8_style_rewrite.2.2.2 "x" "a:url(b.png)" (fun _ => rfl)
